import Mathlib

/-!
Verification development for the lifting-diary workout tracker.

The repository is a Next.js application whose verifiable core consists of:
the relational data model (exercises / workouts / workout_exercises / sets),
the data-access helpers (getWorkoutsByDate, createWorkoutHelper, and the
getWorkoutById / updateWorkoutHelper helpers whose callers are in the app
layer), the zod validation schemas of the create/update server actions, the
weight-unit conversion utilities, and the cookie-backed weight-unit
preference.

Embedding conventions:
* Timestamps (JS Date values) are integer milliseconds since the epoch, and
  the local timezone of the host is fixed at UTC offset zero, so the local
  calendar day containing an instant t starts at 86400000 * (t fdiv 86400000).
* The relational store is a record of four lists, one per table, each list in
  insertion order.
* JS numbers that the code manipulates exactly (no rounding is at issue in
  the claims) are modelled as rationals; NaN is modelled by an Option.
* Host primitives (parseFloat, parseInt, Date.parse, new Date(string), the
  cookie store) are modelled by small executable functions that agree with
  the builtin on the inputs the application feeds them.
-/

namespace LiftingDiary

/-! ### Weight units and conversion (src/unnamed/part_001, weight-utils) -/

/-- The WeightUnit union type: the two display units. -/
inductive WeightUnit
  | lbs
  | kg
deriving DecidableEq, Repr

/-- Conversion constant LBS_TO_KG = 0.453592 (1 pound = 0.453592 kilograms). -/
def LBS_TO_KG : ℚ := 453592 / 1000000

/-- Conversion constant KG_TO_LBS = 2.20462 (1 kilogram = 2.20462 pounds). -/
def KG_TO_LBS : ℚ := 220462 / 100000

/-- Characters treated as whitespace when JS numeric parsing skips a prefix. -/
def skipWs (cs : List Char) : List Char :=
  cs.dropWhile (fun c => c = ' ' || c = '\t' || c = '\n' || c = '\r')

/-- Numeric value of a list of decimal digit characters. -/
def digitsVal (ds : List Char) : Nat :=
  ds.foldl (fun acc c => 10 * acc + (c.toNat - 48)) 0

/-- Model of the JavaScript parseFloat builtin on the decimal inputs the
application feeds it: after optional leading whitespace it parses an optional
sign, then the longest prefix of digits with an optional fractional part; if
no digit is found the JS result is NaN, modelled here as none. Exponent
suffixes and the Infinity literal are outside the modelled input set. -/
def jsParseFloat (s : String) : Option ℚ :=
  let cs := skipWs s.data
  let signed : ℚ × List Char :=
    match cs with
    | '-' :: rest => (-1, rest)
    | '+' :: rest => (1, rest)
    | _ => (1, cs)
  let intPart := signed.2.takeWhile Char.isDigit
  let rest1 := signed.2.dropWhile Char.isDigit
  let fracPart :=
    match rest1 with
    | '.' :: rest2 => rest2.takeWhile Char.isDigit
    | _ => []
  if intPart.isEmpty && fracPart.isEmpty then none
  else
    some (signed.1 * ((digitsVal intPart : ℚ) + (digitsVal fracPart : ℚ) / ((10 : ℚ) ^ fracPart.length)))

/-- Model of the JavaScript parseInt(s, 10) builtin: after optional leading
whitespace it parses an optional sign and then the longest prefix of decimal
digits; if no digit is found the JS result is NaN, modelled here as none. -/
def parseIntBase10 (s : String) : Option Int :=
  let cs := skipWs s.data
  let signed : Int × List Char :=
    match cs with
    | '-' :: rest => (-1, rest)
    | '+' :: rest => (1, rest)
    | _ => (1, cs)
  let ds := signed.2.takeWhile Char.isDigit
  if ds.isEmpty then none
  else some (signed.1 * (digitsVal ds : Int))

/-- The weight argument of convertWeight is typed number | string; a JS number
may additionally be NaN, which no rational represents, so the numeric case is
split into num and nan. -/
inductive WeightInput
  | num (q : ℚ)
  | nan
  | str (s : String)
deriving DecidableEq

/-- The numeric coercion step of convertWeight: a string goes through
parseFloat (the database returns numeric columns as text), a number passes
through, and NaN stays NaN (none). -/
def toNumWeight : WeightInput → Option ℚ
  | .str s => jsParseFloat s
  | .num q => some q
  | .nan => none

/-- Embedding of convertWeight: coerce the input to a number, return 0 on
invalid input, short-circuit when the units are equal, otherwise multiply by
the direction's constant. -/
def convertWeight (weight : WeightInput) (fromUnit toUnit : WeightUnit) : ℚ :=
  match toNumWeight weight with
  | none => 0
  | some numWeight =>
    if fromUnit = toUnit then numWeight
    else if fromUnit = .lbs ∧ toUnit = .kg then numWeight * LBS_TO_KG
    else if fromUnit = .kg ∧ toUnit = .lbs then numWeight * KG_TO_LBS
    else numWeight

/-- Embedding of the isValidWeightUnit type guard; the unknown argument is
modelled as an optional string, none standing for undefined. -/
def isValidWeightUnit (value : Option String) : Bool :=
  value == some "lbs" || value == some "kg"

/-! ### Cookie-backed preference (src/lib/weight-preference.ts) -/

/-- Cookie name used by the preference store. -/
def COOKIE_NAME : String := "weight-unit"

/-- Default unit returned when the cookie is missing or invalid. -/
def DEFAULT_UNIT : WeightUnit := .lbs

/-- Embedding of getWeightUnitPreference: the cookie store is modelled by the
optional stored value of the weight-unit cookie. When the strict membership
check passes the stored string is returned as the corresponding unit,
otherwise the default applies. -/
def getWeightUnitPreference (cookieValue : Option String) : WeightUnit :=
  if isValidWeightUnit cookieValue then
    if cookieValue == some "kg" then .kg else .lbs
  else DEFAULT_UNIT

/-! ### Data model (src/db/schema.ts) -/

/-- Row of the exercises table (global catalog). -/
structure ExerciseRow where
  id : Nat
  name : String
  description : Option String
  muscleGroup : Option String
  createdAt : Int
deriving DecidableEq, Repr

/-- Row of the workouts table. -/
structure WorkoutRow where
  id : Nat
  userId : String
  name : String
  date : Int
  durationMinutes : Option Int
  createdAt : Int
  updatedAt : Int
deriving DecidableEq, Repr

/-- Row of the workout_exercises junction table. -/
structure WorkoutExerciseRow where
  id : Nat
  workoutId : Nat
  exerciseId : Nat
  orderIndex : Int
  createdAt : Int
deriving DecidableEq, Repr

/-- Row of the sets table; weight is numeric(6,2), which the store layer
returns as text, hence a string here exactly as in the WorkoutWithDetails
interface. -/
structure SetRow where
  id : Nat
  workoutExerciseId : Nat
  setNumber : Int
  reps : Int
  weight : String
  createdAt : Int
deriving DecidableEq, Repr

/-- The relational store: one list per table, each in insertion order (serial
ids are assigned in insertion order). -/
structure Db where
  workouts : List WorkoutRow
  workoutExercises : List WorkoutExerciseRow
  exercises : List ExerciseRow
  sets : List SetRow
deriving DecidableEq, Repr

/-- The workouts table's primary-key constraint: ids are pairwise distinct. -/
abbrev workoutIdsUnique (db : Db) : Prop :=
  db.workouts.Pairwise (fun a b => a.id ≠ b.id)

/-! ### Nested result shape (WorkoutWithDetails) -/

/-- Set entry of the nested result. -/
structure SetDetail where
  id : Nat
  setNumber : Int
  reps : Int
  weight : String
deriving DecidableEq, Repr

/-- Exercise entry of the nested result. -/
structure ExerciseDetail where
  id : Nat
  name : String
  muscleGroup : Option String
  orderIndex : Int
  sets : List SetDetail
deriving DecidableEq, Repr

/-- The WorkoutWithDetails interface returned by getWorkoutsByDate. -/
structure WorkoutWithDetails where
  id : Nat
  name : String
  date : Int
  durationMinutes : Option Int
  exercises : List ExerciseDetail
deriving DecidableEq, Repr

/-! ### Day boundaries (getWorkoutsByDate local constants) -/

/-- Milliseconds in one day. -/
def msPerDay : Int := 86400000

/-- Model of startOfDay = new Date(date); startOfDay.setHours(0,0,0,0):
the first millisecond of the local calendar day containing the instant. -/
def startOfDay (t : Int) : Int := msPerDay * (Int.fdiv t msPerDay)

/-- Model of endOfDay = new Date(date); endOfDay.setHours(23,59,59,999):
the final millisecond of the local calendar day containing the instant. -/
def endOfDay (t : Int) : Int := startOfDay t + 86399999

/-- The first millisecond of the local calendar day after the one containing
the instant (the next local midnight). -/
def nextDayStart (t : Int) : Int := startOfDay t + msPerDay

/-! ### Query ordering relations (drizzle orderBy clauses) -/

/-- Comparator of orderBy [desc(workouts.date)]: a precedes b when b's date
is at most a's. -/
def dateDesc (a b : WorkoutRow) : Prop := b.date ≤ a.date

instance : DecidableRel dateDesc :=
  fun a b => inferInstanceAs (Decidable (b.date ≤ a.date))

instance : IsTotal WorkoutRow dateDesc :=
  ⟨fun a b => le_total b.date a.date⟩

instance : IsTrans WorkoutRow dateDesc :=
  ⟨fun _ _ _ h1 h2 => le_trans h2 h1⟩

/-- Comparator of orderBy [asc(workoutExercises.orderIndex)]. -/
def orderIndexAsc (a b : WorkoutExerciseRow) : Prop := a.orderIndex ≤ b.orderIndex

instance : DecidableRel orderIndexAsc :=
  fun a b => inferInstanceAs (Decidable (a.orderIndex ≤ b.orderIndex))

instance : IsTotal WorkoutExerciseRow orderIndexAsc :=
  ⟨fun a b => le_total a.orderIndex b.orderIndex⟩

instance : IsTrans WorkoutExerciseRow orderIndexAsc :=
  ⟨fun _ _ _ h1 h2 => le_trans h1 h2⟩

/-- Comparator of orderBy [asc(sets.setNumber)]. -/
def setNumberAsc (a b : SetRow) : Prop := a.setNumber ≤ b.setNumber

instance : DecidableRel setNumberAsc :=
  fun a b => inferInstanceAs (Decidable (a.setNumber ≤ b.setNumber))

instance : IsTotal SetRow setNumberAsc :=
  ⟨fun a b => le_total a.setNumber b.setNumber⟩

instance : IsTrans SetRow setNumberAsc :=
  ⟨fun _ _ _ h1 h2 => le_trans h1 h2⟩

/-- Placeholder row for the (foreign-key-guaranteed) exercise join; it is
only reached on stores that violate the exercise_id foreign key. -/
def fallbackExercise : ExerciseRow :=
  { id := 0, name := "", description := none, muscleGroup := none, createdAt := 0 }

/-! ### Data-access helpers (data/workouts.ts portion of src/db/schema.ts) -/

/-- The transform applied to each row by getWorkoutsByDate: eagerly joins
the workout's workout_exercises (ordered by orderIndex ascending) with the
exercise catalog and each junction row's sets (ordered by setNumber
ascending), producing the WorkoutWithDetails shape. -/
def detailsOfWorkout (db : Db) (workout : WorkoutRow) : WorkoutWithDetails :=
  { id := workout.id
    name := workout.name
    date := workout.date
    durationMinutes := workout.durationMinutes
    exercises :=
      (List.insertionSort orderIndexAsc
          (db.workoutExercises.filter (fun we => we.workoutId == workout.id))).map
        (fun we =>
          let exercise := (db.exercises.find? (fun e => e.id == we.exerciseId)).getD fallbackExercise
          { id := exercise.id
            name := exercise.name
            muscleGroup := exercise.muscleGroup
            orderIndex := we.orderIndex
            sets :=
              (List.insertionSort setNumberAsc
                  (db.sets.filter (fun s => s.workoutExerciseId == we.id))).map
                (fun s =>
                  { id := s.id
                    setNumber := s.setNumber
                    reps := s.reps
                    weight := s.weight }) }) }

/-- Embedding of getWorkoutsByDate: filter the user's workouts to the
half-open window [startOfDay, endOfDay) — note endOfDay is 23:59:59.999 of
the same local day — order them by date descending, and map the rows onto
the WorkoutWithDetails shape. The relational ORDER BY is modelled by an
insertion sort; since SQL determines the result only up to the relative
order of rows sharing the sort key, the theorems below use the model's
order only through membership and sortedness, never through the model's
choice of tie order. -/
def getWorkoutsByDate (userId : String) (date : Int) (db : Db) : List WorkoutWithDetails :=
  (List.insertionSort dateDesc
      (db.workouts.filter (fun w =>
        w.userId == userId && decide (startOfDay date ≤ w.date)
          && decide (w.date < endOfDay date)))).map
    (detailsOfWorkout db)

/-- Input record of createWorkoutHelper. -/
structure CreateWorkoutData where
  name : String
  date : Int
  durationMinutes : Option Int
  userId : String
deriving DecidableEq, Repr

/-- Embedding of createWorkoutHelper: inserts a workout row carrying the
caller's userId; the expression durationMinutes || null stores null whenever
the supplied value is JS-falsy (undefined or the number 0) and the value
itself otherwise; createdAt/updatedAt are both new Date() at the operation
(the now argument); the serial id assigned by the store is the newId
argument. -/
def createWorkoutHelper (data : CreateWorkoutData) (now : Int) (newId : Nat) : WorkoutRow :=
  { id := newId
    name := data.name
    date := data.date
    durationMinutes :=
      match data.durationMinutes with
      | none => none
      | some n => if n = 0 then none else some n
    userId := data.userId
    createdAt := now
    updatedAt := now }

/-- Modelled from the spec: the implementation of getWorkoutById in
data/workouts.ts is not among the provided sources (only its callers and a
guideline document are). Per the spec it filters by BOTH workoutId and
userId, the two predicates ANDed in one query with limit 1, and returns the
row or absent — absent uniformly whether the id does not exist or belongs to
another user. -/
def getWorkoutById (workoutId : Nat) (userId : String) (db : Db) : Option WorkoutRow :=
  (db.workouts.filter (fun w => w.id == workoutId && w.userId == userId)).head?

/-- Update payload of updateWorkoutHelper. -/
structure UpdateWorkoutData where
  name : String
  date : Int
  durationMinutes : Option Int
deriving DecidableEq, Repr

/-- Modelled from the spec: the implementation of updateWorkoutHelper in
data/workouts.ts is not among the provided sources (only its caller is). Per
the spec the update statement itself carries the userId filter together with
the workoutId, affects at most the owned row, refreshes the updated
timestamp, and yields absent when zero rows match. -/
def updateWorkoutHelper (workoutId : Nat) (userId : String) (data : UpdateWorkoutData)
    (now : Int) (db : Db) : Option WorkoutRow :=
  match (db.workouts.filter (fun w => w.id == workoutId && w.userId == userId)).head? with
  | none => none
  | some w =>
    some { w with
      name := data.name
      date := data.date
      durationMinutes := data.durationMinutes
      updatedAt := now }

/-! ### Validation layer (createWorkoutSchema / updateWorkoutSchema) -/

/-- Raw form input of the create/update actions: name and date strings plus
the optional durationMinutes string. -/
structure WorkoutFormInput where
  name : String
  date : String
  durationMinutes : Option String
deriving DecidableEq, Repr

/-- Output of a successful safeParse of the create/update schema. -/
structure ParsedWorkoutInput where
  name : String
  date : String
  durationMinutes : Option Int
deriving DecidableEq, Repr

/-- Splits a character list on the dash character, mirroring
String.splitOn "-" but kept executable down to the kernel. -/
def splitOnDash (cs : List Char) : List (List Char) :=
  cs.foldr
    (fun c acc =>
      match acc with
      | g :: gs => if c = '-' then [] :: g :: gs else (c :: g) :: gs
      | [] => [[c]])
    [[]]

/-- Model of the refinement !isNaN(Date.parse(val)) restricted to the ISO
date-only strings (YYYY-MM-DD) that the date form input submits; Date.parse
is a host builtin. -/
def dateParses (s : String) : Bool :=
  match splitOnDash s.data with
  | [y, m, d] =>
    y.length == 4 && y.all Char.isDigit && m.length == 2 && m.all Char.isDigit
      && d.length == 2 && d.all Char.isDigit
  | _ => false

/-- The transform of the optional durationMinutes string field, shared
verbatim by createWorkoutSchema and updateWorkoutSchema: a falsy value
(undefined or the empty string) becomes undefined, otherwise the string goes
through parseInt base 10 and an unparseable string again becomes undefined;
a parsed integer of any sign is kept. -/
def durationTransform (val : Option String) : Option Int :=
  if val = none ∨ val = some "" then none
  else
    match parseIntBase10 (val.getD "") with
    | none => none
    | some num => some num

/-- Error messages of the name field: z.string().min(1, ...).max(255, ...). -/
def nameFieldErrors (name : String) : List String :=
  (if name.length < 1 then ["Workout name is required"] else [])
    ++ (if name.length > 255 then ["Workout name is too long"] else [])

/-- Error messages of the date field: the Date.parse refinement. -/
def dateFieldErrors (date : String) : List String :=
  if dateParses date then [] else ["Invalid date format"]

/-- The flattened field-keyed error map of a failed safeParse. -/
def workoutFieldErrors (input : WorkoutFormInput) : List (String × List String) :=
  (if (nameFieldErrors input.name).isEmpty then [] else [("name", nameFieldErrors input.name)])
    ++ (if (dateFieldErrors input.date).isEmpty then []
        else [("date", dateFieldErrors input.date)])

/-- Decidable equality of Except values, needed to evaluate validation
results on concrete inputs. -/
instance {ε α : Type} [DecidableEq ε] [DecidableEq α] : DecidableEq (Except ε α) :=
  fun a b =>
    match a, b with
    | .ok x, .ok y => if h : x = y then isTrue (by rw [h]) else isFalse (by simp [h])
    | .error e, .error f => if h : e = f then isTrue (by rw [h]) else isFalse (by simp [h])
    | .ok _, .error _ => isFalse (by simp)
    | .error _, .ok _ => isFalse (by simp)

/-- Embedding of safeParse for createWorkoutSchema and updateWorkoutSchema
(the two zod object schemas are textually identical): on failure the
flattened field-keyed error map, on success the parsed data with the
durationMinutes transform applied. -/
def workoutSchemaSafeParse (input : WorkoutFormInput) :
    Except (List (String × List String)) ParsedWorkoutInput :=
  if (workoutFieldErrors input).isEmpty then
    .ok
      { name := input.name
        date := input.date
        durationMinutes := durationTransform input.durationMinutes }
  else .error (workoutFieldErrors input)

/-- Decimal digits of a string as a natural number (helper of jsNewDate). -/
def decDigitsToNat (s : List Char) : Nat :=
  s.foldl (fun acc c => 10 * acc + (c.toNat - 48)) 0

/-- Model of new Date(string) on the ISO date-only strings the action
receives after validation: maps YYYY-MM-DD to the first millisecond of that
calendar day under a simplified injective day count (372 days per year, 31
per month); the exact epoch arithmetic of the host is irrelevant to the
verified properties. -/
def jsNewDate (s : String) : Int :=
  match splitOnDash s.data with
  | [y, m, d] =>
    msPerDay * ((decDigitsToNat y) * 372 + ((decDigitsToNat m) - 1) * 31 + ((decDigitsToNat d) - 1) : Nat)
  | _ => 0

/-! ### updateWorkout server action
(src/app/dashboard/workout/[workoutId]/actions.ts) -/

/-- Parameters of the updateWorkout server action. -/
structure UpdateWorkoutParams where
  workoutId : Nat
  name : String
  date : String
  durationMinutes : Option String
deriving DecidableEq, Repr

/-- The ActionResult discriminated union: success with the workout, or
failure whose errors are either a field-keyed map or a single string
message. -/
inductive ActionResult
  | success (data : WorkoutRow)
  | fieldErrors (errors : List (String × List String))
  | messageError (errors : String)
deriving DecidableEq, Repr

/-- Embedding of the updateWorkout server action: auth() is modelled by the
optional authenticated user id; a missing principal short-circuits, a failed
safeParse returns the field-keyed errors, an absent result from the data
helper returns the single not-found-or-not-permitted message, and otherwise
the updated workout is returned. The catch-all store-failure branch is not
modelled (the embedded store never throws). -/
def updateWorkout (authUserId : Option String) (params : UpdateWorkoutParams)
    (now : Int) (db : Db) : ActionResult :=
  match authUserId with
  | none => .messageError "Authentication required"
  | some userId =>
    match workoutSchemaSafeParse
        { name := params.name, date := params.date, durationMinutes := params.durationMinutes } with
    | .error errs => .fieldErrors errs
    | .ok data =>
      match updateWorkoutHelper params.workoutId userId
          { name := data.name, date := jsNewDate data.date, durationMinutes := data.durationMinutes }
          now db with
      | none => .messageError "Workout not found or you do not have permission to edit it"
      | some workout => .success workout

/-! ### Concrete stores used by the witnesses -/

/-- A workout owned by user bob. -/
def bobWorkout : WorkoutRow :=
  { id := 7, userId := "bob", name := "Pull Day", date := 0, durationMinutes := none,
    createdAt := 0, updatedAt := 0 }

/-- A store holding only bob's workout. -/
def isoDb : Db :=
  { workouts := [bobWorkout], workoutExercises := [], exercises := [], sets := [] }

/-- A store with no rows at all. -/
def emptyDb : Db :=
  { workouts := [], workoutExercises := [], exercises := [], sets := [] }

/-- A workout timed at the very last millisecond (23:59:59.999) of local day
zero. -/
def lateWorkout : WorkoutRow :=
  { id := 3, userId := "alice", name := "Night Session", date := 86399999,
    durationMinutes := none, createdAt := 0, updatedAt := 0 }

/-- A store holding only the last-millisecond workout. -/
def lateDb : Db :=
  { workouts := [lateWorkout], workoutExercises := [], exercises := [], sets := [] }

/-- A workout of user u with exercises stored at order indices 0, 2, 1 and
two sets stored in reversed setNumber order. -/
def exWorkout : WorkoutRow :=
  { id := 1, userId := "u", name := "Full Body", date := 0, durationMinutes := some 60,
    createdAt := 0, updatedAt := 0 }

/-- The store around exWorkout. -/
def exDb : Db :=
  { workouts := [exWorkout]
    workoutExercises :=
      [ { id := 11, workoutId := 1, exerciseId := 101, orderIndex := 0, createdAt := 0 }
      , { id := 12, workoutId := 1, exerciseId := 102, orderIndex := 2, createdAt := 0 }
      , { id := 13, workoutId := 1, exerciseId := 103, orderIndex := 1, createdAt := 0 } ]
    exercises :=
      [ { id := 101, name := "Bench Press", description := some "Barbell bench press",
          muscleGroup := some "Chest", createdAt := 0 }
      , { id := 102, name := "Squat", description := some "Barbell back squat",
          muscleGroup := some "Legs", createdAt := 0 }
      , { id := 103, name := "Deadlift", description := some "Conventional deadlift",
          muscleGroup := some "Back", createdAt := 0 } ]
    sets :=
      [ { id := 21, workoutExerciseId := 11, setNumber := 2, reps := 5, weight := "100.00",
          createdAt := 0 }
      , { id := 22, workoutExerciseId := 11, setNumber := 1, reps := 5, weight := "95.00",
          createdAt := 0 } ] }

/-- The nested result getWorkoutsByDate produces from exDb: exercises come
back ordered 0, 1, 2 and the sets of the first exercise ordered 1, 2. -/
def exDetails : WorkoutWithDetails :=
  { id := 1, name := "Full Body", date := 0, durationMinutes := some 60,
    exercises :=
      [ { id := 101, name := "Bench Press", muscleGroup := some "Chest", orderIndex := 0,
          sets := [ { id := 22, setNumber := 1, reps := 5, weight := "95.00" }
                  , { id := 21, setNumber := 2, reps := 5, weight := "100.00" } ] }
      , { id := 103, name := "Deadlift", muscleGroup := some "Back", orderIndex := 1, sets := [] }
      , { id := 102, name := "Squat", muscleGroup := some "Legs", orderIndex := 2, sets := [] } ] }

/-! ### Helper lemmas -/

/-- In a list of workout rows with pairwise distinct ids, two members with
the same id are the same row (the primary-key argument). -/
lemma eq_of_mem_of_id_eq :
    ∀ {l : List WorkoutRow}, l.Pairwise (fun a b => a.id ≠ b.id) →
      ∀ {a b : WorkoutRow}, a ∈ l → b ∈ l → a.id = b.id → a = b := by
  intro l hl
  induction hl with
  | nil => intro a b ha _ _; exact absurd ha (List.not_mem_nil a)
  | cons hx _ ih =>
    intro a b ha hb hid
    rcases List.mem_cons.mp ha with rfl | ha'
    · rcases List.mem_cons.mp hb with rfl | hb'
      · rfl
      · exact absurd hid (hx b hb')
    · rcases List.mem_cons.mp hb with rfl | hb'
      · exact absurd hid.symm (hx a ha')
      · exact ih ha' hb' hid

/-! ### Claim theorems -/

/-- C5: for every weight input that coerces to a number q and every unit u,
convertWeight with equal source and target units returns q unchanged — the
fromUnit == toUnit short-circuit fires before any conversion arithmetic. -/
theorem convertWeight_same_unit (w : WeightInput) (u : WeightUnit) (q : ℚ)
    (h : toNumWeight w = some q) : convertWeight w u u = q := by
  unfold convertWeight
  rw [h]
  simp

/-- Witness for convertWeight_same_unit at the number 7 and unit lbs. -/
theorem convertWeight_same_unit_witness :
    toNumWeight (.num 7) = some 7 ∧ convertWeight (.num 7) .lbs .lbs = 7 :=
  ⟨rfl, convertWeight_same_unit (.num 7) .lbs 7 rfl⟩

/-- C6: the two conversion constants are not mutual inverses — their product
differs from 1 — hence the lbs→kg→lbs round trip moves the weight 100, and
some positive weight fails to round-trip; the relative drift
1 - LBS_TO_KG * KG_TO_LBS lies strictly between 0.0000019 and 0.0000021,
that is, roughly 0.0002 percent. -/
theorem convertWeight_roundtrip_drift :
    LBS_TO_KG * KG_TO_LBS ≠ 1
      ∧ convertWeight (.num (convertWeight (.num 100) .lbs .kg)) .kg .lbs ≠ 100
      ∧ (∃ w : ℚ, 0 < w ∧ convertWeight (.num (convertWeight (.num w) .lbs .kg)) .kg .lbs ≠ w)
      ∧ (19 : ℚ) / 10 ^ 7 < 1 - LBS_TO_KG * KG_TO_LBS
      ∧ 1 - LBS_TO_KG * KG_TO_LBS < (21 : ℚ) / 10 ^ 7 := by
  have hchain : ∀ q : ℚ,
      convertWeight (.num (convertWeight (.num q) .lbs .kg)) .kg .lbs = q * LBS_TO_KG * KG_TO_LBS :=
    fun q => rfl
  refine ⟨?_, ?_, ⟨100, by norm_num, ?_⟩, ?_, ?_⟩
  · unfold LBS_TO_KG KG_TO_LBS
    norm_num
  · rw [hchain]
    unfold LBS_TO_KG KG_TO_LBS
    norm_num
  · rw [hchain]
    unfold LBS_TO_KG KG_TO_LBS
    norm_num
  · unfold LBS_TO_KG KG_TO_LBS
    norm_num
  · unfold LBS_TO_KG KG_TO_LBS
    norm_num

/-- C7: convertWeight is a total function into the rationals (the embedding
of "always returns a number, never throws"), and whenever the input fails to
coerce to a number — a NaN number, or any string parseFloat rejects — the
result is exactly 0. -/
theorem convertWeight_invalid_input_zero :
    (∀ w fu tu, ∃ q : ℚ, convertWeight w fu tu = q)
      ∧ (∀ w fu tu, toNumWeight w = none → convertWeight w fu tu = 0)
      ∧ (∀ s fu tu, jsParseFloat s = none → convertWeight (.str s) fu tu = 0)
      ∧ (∀ fu tu, convertWeight .nan fu tu = 0) := by
  have hz : ∀ w fu tu, toNumWeight w = none → convertWeight w fu tu = 0 := by
    intro w fu tu h
    unfold convertWeight
    rw [h]
  exact ⟨fun w fu tu => ⟨convertWeight w fu tu, rfl⟩, hz,
    fun s fu tu h => hz (.str s) fu tu h, fun fu tu => hz .nan fu tu rfl⟩

/-- Witness for convertWeight_invalid_input_zero at the non-numeric string
abc and at NaN. -/
theorem convertWeight_invalid_input_zero_witness :
    jsParseFloat "abc" = none ∧ convertWeight (.str "abc") .lbs .kg = 0
      ∧ convertWeight .nan .kg .lbs = 0 :=
  ⟨rfl, convertWeight_invalid_input_zero.2.2.1 "abc" .lbs .kg rfl,
    convertWeight_invalid_input_zero.2.2.2 .kg .lbs⟩

/-- C8: the preference getter is a total function (never throws); it returns
lbs when the cookie is absent and when the stored value is any string
outside the set with members lbs and kg, and it returns the stored value
exactly when the strict membership check passes. -/
theorem getWeightUnitPreference_default (s : String)
    (h1 : s ≠ "lbs") (h2 : s ≠ "kg") :
    getWeightUnitPreference none = .lbs
      ∧ getWeightUnitPreference (some s) = .lbs
      ∧ getWeightUnitPreference (some "lbs") = .lbs
      ∧ getWeightUnitPreference (some "kg") = .kg
      ∧ isValidWeightUnit (some s) = false := by
  refine ⟨rfl, ?_, rfl, rfl, ?_⟩
  · simp [getWeightUnitPreference, isValidWeightUnit, DEFAULT_UNIT, h1, h2]
  · simp [isValidWeightUnit, h1, h2]

/-- Witness for getWeightUnitPreference_default at the invalid stored value
stone. -/
theorem getWeightUnitPreference_default_witness :
    getWeightUnitPreference (some "stone") = .lbs :=
  (getWeightUnitPreference_default "stone" (by decide) (by decide)).2.1

/-- C10: the stored duration of a created workout is null exactly when the
supplied durationMinutes is absent or 0 (the JS-falsy coercion of
durationMinutes || null), is the supplied value otherwise, and in particular
is never exactly zero. -/
theorem createWorkoutHelper_duration_null (data : CreateWorkoutData) (now : Int) (newId : Nat) :
    ((createWorkoutHelper data now newId).durationMinutes = none ↔
        data.durationMinutes = none ∨ data.durationMinutes = some 0)
      ∧ (∀ n : Int, data.durationMinutes = some n → n ≠ 0 →
          (createWorkoutHelper data now newId).durationMinutes = some n)
      ∧ (createWorkoutHelper data now newId).durationMinutes ≠ some 0 := by
  refine ⟨?_, ?_, ?_⟩
  · cases hd : data.durationMinutes with
    | none => simp [createWorkoutHelper, hd]
    | some n => by_cases hn : n = 0 <;> simp [createWorkoutHelper, hd, hn]
  · intro n hdn hn
    simp [createWorkoutHelper, hdn, hn]
  · cases hd : data.durationMinutes with
    | none => simp [createWorkoutHelper, hd]
    | some n => by_cases hn : n = 0 <;> simp [createWorkoutHelper, hd, hn]

/-- Witness for createWorkoutHelper_duration_null: a supplied duration of 0
is stored as null and a supplied duration of 45 is stored as 45. -/
theorem createWorkoutHelper_duration_null_witness :
    (createWorkoutHelper
        { name := "Push Day", date := 0, durationMinutes := some 0, userId := "u1" } 5 1).durationMinutes = none
      ∧ (createWorkoutHelper
          { name := "Push Day", date := 0, durationMinutes := some 45, userId := "u1" } 5 1).durationMinutes = some 45 :=
  ⟨(createWorkoutHelper_duration_null
      { name := "Push Day", date := 0, durationMinutes := some 0, userId := "u1" } 5 1).1.mpr
    (Or.inr rfl),
    (createWorkoutHelper_duration_null
      { name := "Push Day", date := 0, durationMinutes := some 45, userId := "u1" } 5 1).2.1 45 rfl
    (by decide)⟩

/-- C3 counterexample: the create/update schema accepts the durationMinutes
string -5, parsing it to the non-positive integer -5, refuting that a
supplied string is accepted only when it parses to a positive integer. -/
theorem workoutSchema_accepts_negative_duration :
    workoutSchemaSafeParse { name := "Legs", date := "2025-03-10", durationMinutes := some "-5" } =
        .ok { name := "Legs", date := "2025-03-10", durationMinutes := some (-5) }
      ∧ ¬(0 < (-5 : Int)) :=
  ⟨by decide, by decide⟩

/-- C3 amended: a supplied durationMinutes string is accepted with whatever
integer (of any sign, zero included) parseInt base 10 extracts from it;
absent, blank, and unparseable strings alike are coerced to "not provided"
(none) rather than zero or an error; and the durationMinutes field never
influences whether validation succeeds. -/
theorem workoutSchema_duration_field (input : WorkoutFormInput) (parsed : ParsedWorkoutInput)
    (hok : workoutSchemaSafeParse input = .ok parsed) :
    (∀ n : Int, parsed.durationMinutes = some n →
        ∃ s, input.durationMinutes = some s ∧ s ≠ "" ∧ parseIntBase10 s = some n)
      ∧ ((input.durationMinutes = none ∨ input.durationMinutes = some "") →
          parsed.durationMinutes = none)
      ∧ (∀ s, input.durationMinutes = some s → parseIntBase10 s = none →
          parsed.durationMinutes = none)
      ∧ (∀ v, (workoutSchemaSafeParse { input with durationMinutes := v }).isOk =
          (workoutSchemaSafeParse input).isOk) := by
  have hdur : parsed.durationMinutes = durationTransform input.durationMinutes := by
    unfold workoutSchemaSafeParse at hok
    split at hok
    · rw [Except.ok.injEq] at hok
      rw [← hok]
    · exact absurd hok (by simp)
  clear hok
  refine ⟨?_, ?_, ?_, ?_⟩
  · intro n hn
    rw [hdur] at hn
    unfold durationTransform at hn
    split at hn
    · exact absurd hn (by simp)
    · rename_i hcond
      cases hval : input.durationMinutes with
      | none => exact absurd (Or.inl hval) hcond
      | some s =>
        refine ⟨s, rfl, ?_, ?_⟩
        · intro hblank
          exact hcond (Or.inr (by rw [hval, hblank]))
        · rw [hval] at hn
          split at hn
          · exact absurd hn (by simp)
          · rename_i m hm
            rw [Option.some.injEq] at hn
            simp only [Option.getD_some] at hm
            rw [hm, hn]
  · intro h
    rw [hdur]
    unfold durationTransform
    rw [if_pos h]
  · intro s hs hparse
    rw [hdur]
    unfold durationTransform
    by_cases hblank : s = ""
    · rw [if_pos (Or.inr (by rw [hs, hblank]))]
    · rw [if_neg ?_]
      · rw [hs]
        simp only [Option.getD_some]
        rw [hparse]
      · rintro (hc | hc) <;> rw [hs] at hc
        · exact Option.noConfusion hc
        · rw [Option.some.injEq] at hc
          exact hblank hc
  · intro v
    have he : workoutFieldErrors { input with durationMinutes := v } = workoutFieldErrors input :=
      rfl
    unfold workoutSchemaSafeParse
    rw [he]
    by_cases hc : (workoutFieldErrors input).isEmpty <;> simp only [hc, if_true, if_false] <;> rfl

/-- Witness for workoutSchema_duration_field: a blank durationMinutes string
passes validation and is coerced to none. -/
theorem workoutSchema_duration_field_witness :
    workoutSchemaSafeParse { name := "Legs", date := "2025-03-10", durationMinutes := some "" } =
        .ok { name := "Legs", date := "2025-03-10", durationMinutes := none }
      ∧ ({ name := "Legs", date := "2025-03-10", durationMinutes := none } : ParsedWorkoutInput).durationMinutes = none :=
  ⟨by decide,
    (workoutSchema_duration_field
        { name := "Legs", date := "2025-03-10", durationMinutes := some "" }
        { name := "Legs", date := "2025-03-10", durationMinutes := none }
        (by decide)).2.1 (Or.inr rfl)⟩

/-- C1: cross-user reads through getWorkoutById are impossible — for
distinct users A and B and a workout of B in a store with unique workout
ids, fetching that workout's id as A yields none; moreover any row the query
does return carries exactly the requested id and the requesting user's id,
since the two predicates are ANDed in the one filter. -/
theorem getWorkoutById_user_isolation (A B : String) (w : WorkoutRow) (db : Db)
    (hAB : A ≠ B) (huniq : workoutIdsUnique db) (hw : w ∈ db.workouts) (hown : w.userId = B) :
    getWorkoutById w.id A db = none
      ∧ ∀ wid uid r, getWorkoutById wid uid db = some r → r.id = wid ∧ r.userId = uid := by
  constructor
  · unfold getWorkoutById
    have hnil : db.workouts.filter (fun w2 => w2.id == w.id && w2.userId == A) = [] := by
      rw [List.filter_eq_nil_iff]
      intro a ha hcon
      simp only [Bool.and_eq_true, beq_iff_eq] at hcon
      obtain ⟨hid, huser⟩ := hcon
      have haw : a = w := eq_of_mem_of_id_eq huniq ha hw hid
      apply hAB
      rw [← huser, haw, hown]
    rw [hnil]
    rfl
  · intro wid uid r h
    unfold getWorkoutById at h
    have hr : r ∈ db.workouts.filter (fun w2 => w2.id == wid && w2.userId == uid) := by
      cases hfl : db.workouts.filter (fun w2 => w2.id == wid && w2.userId == uid) with
      | nil =>
        rw [hfl] at h
        exact absurd h (by simp)
      | cons x t =>
        rw [hfl] at h
        simp only [List.head?_cons, Option.some.injEq] at h
        rw [← h]
        exact List.mem_cons_self x t
    have hp := (List.mem_filter.mp hr).2
    simp only [Bool.and_eq_true, beq_iff_eq] at hp
    exact hp

/-- Witness for getWorkoutById_user_isolation: alice cannot fetch bob's
workout 7. -/
theorem getWorkoutById_user_isolation_witness :
    getWorkoutById 7 "alice" isoDb = none :=
  (getWorkoutById_user_isolation "alice" "bob" bobWorkout isoDb
      (by decide) (by decide) (by decide) rfl).1

/-- C9: with a validly-shaped input, updating a workout id owned by another
user and updating a nonexistent id produce identical results — the single
not-found-or-not-permitted message — and that result is distinct in shape
from both the field-keyed validation failure and success, so a caller cannot
tell non-existence from non-ownership. -/
theorem updateWorkout_uniform_absent (userA userB : String) (params : UpdateWorkoutParams)
    (now : Int) (db1 db2 : Db) (wB : WorkoutRow) (parsed : ParsedWorkoutInput)
    (hval : workoutSchemaSafeParse
        { name := params.name, date := params.date, durationMinutes := params.durationMinutes } =
      .ok parsed)
    (hne : userB ≠ userA)
    (huniq : workoutIdsUnique db1) (hwB : wB ∈ db1.workouts)
    (hid : wB.id = params.workoutId) (howner : wB.userId = userB)
    (habsent : ∀ w ∈ db2.workouts, w.id ≠ params.workoutId) :
    updateWorkout (some userA) params now db1 =
        .messageError "Workout not found or you do not have permission to edit it"
      ∧ updateWorkout (some userA) params now db2 = updateWorkout (some userA) params now db1
      ∧ (∀ errs, updateWorkout (some userA) params now db1 ≠ .fieldErrors errs)
      ∧ (∀ wres, updateWorkout (some userA) params now db1 ≠ .success wres) := by
  have h1 : updateWorkout (some userA) params now db1 =
      .messageError "Workout not found or you do not have permission to edit it" := by
    unfold updateWorkout
    rw [hval]
    unfold updateWorkoutHelper
    dsimp only
    have hnil : db1.workouts.filter (fun w => w.id == params.workoutId && w.userId == userA) = [] := by
      rw [List.filter_eq_nil_iff]
      intro a ha hcon
      simp only [Bool.and_eq_true, beq_iff_eq] at hcon
      obtain ⟨haid, hauser⟩ := hcon
      have haw : a = wB := eq_of_mem_of_id_eq huniq ha hwB (by rw [haid, hid])
      rw [haw] at hauser
      rw [howner] at hauser
      exact hne hauser
    rw [hnil]
    rfl
  have h2 : updateWorkout (some userA) params now db2 =
      .messageError "Workout not found or you do not have permission to edit it" := by
    unfold updateWorkout
    rw [hval]
    unfold updateWorkoutHelper
    dsimp only
    have hnil2 : db2.workouts.filter (fun w => w.id == params.workoutId && w.userId == userA) = [] := by
      rw [List.filter_eq_nil_iff]
      intro a ha hcon
      simp only [Bool.and_eq_true, beq_iff_eq] at hcon
      exact habsent a ha hcon.1
    rw [hnil2]
    rfl
  refine ⟨h1, by rw [h1, h2], ?_, ?_⟩
  · intro errs
    rw [h1]
    simp
  · intro wres
    rw [h1]
    simp

/-- Parameters of the updateWorkout witness scenario. -/
def aliceParams : UpdateWorkoutParams :=
  { workoutId := 7, name := "Pull Day", date := "2025-03-10", durationMinutes := none }

/-- Witness for updateWorkout_uniform_absent: alice targeting bob's workout 7
and alice targeting the empty store receive the same message result. -/
theorem updateWorkout_uniform_absent_witness :
    updateWorkout (some "alice") aliceParams 0 isoDb =
        .messageError "Workout not found or you do not have permission to edit it"
      ∧ updateWorkout (some "alice") aliceParams 0 emptyDb =
          updateWorkout (some "alice") aliceParams 0 isoDb :=
  have h := updateWorkout_uniform_absent "alice" "bob" aliceParams 0 isoDb emptyDb bobWorkout
    { name := "Pull Day", date := "2025-03-10", durationMinutes := none }
    (by decide) (by decide) (by decide) (by decide) (by decide) rfl (by decide)
  ⟨h.1, h.2.1⟩

/-- C2 counterexample: a workout of the requesting user timed at
23:59:59.999 — an instant of the queried local day, strictly before the next
day's midnight — is not returned by getWorkoutsByDate, refuting that every
instant of the day up to the next midnight is included. -/
theorem getWorkoutsByDate_excludes_last_ms :
    lateWorkout ∈ lateDb.workouts
      ∧ lateWorkout.userId = "alice"
      ∧ startOfDay 43200000 ≤ lateWorkout.date
      ∧ lateWorkout.date < nextDayStart 43200000
      ∧ getWorkoutsByDate "alice" 43200000 lateDb = [] := by
  refine ⟨by decide, rfl, by decide, by decide, by decide⟩

/-- C2 amended: getWorkoutsByDate returns exactly the workouts of the given
user whose timestamp lies in the half-open window from the start of the
local day to 23:59:59.999 of that day — the day's final millisecond is
excluded along with the next day's midnight, the window's upper bound being
one millisecond short of the next midnight. -/
theorem getWorkoutsByDate_day_window (userId : String) (date : Int) (db : Db)
    (huniq : workoutIdsUnique db) :
    (∀ w ∈ db.workouts,
        ((∃ r ∈ getWorkoutsByDate userId date db, r.id = w.id ∧ r.date = w.date) ↔
          w.userId = userId ∧ startOfDay date ≤ w.date ∧ w.date < endOfDay date))
      ∧ endOfDay date = nextDayStart date - 1 := by
  constructor
  · intro w hw
    constructor
    · rintro ⟨r, hr, hrid, hrdate⟩
      unfold getWorkoutsByDate at hr
      obtain ⟨wr, hwr, hfr⟩ := List.mem_map.mp hr
      have hwrf : wr ∈ db.workouts.filter (fun w2 =>
          w2.userId == userId && decide (startOfDay date ≤ w2.date)
            && decide (w2.date < endOfDay date)) :=
        (List.perm_insertionSort dateDesc _).mem_iff.mp hwr
      obtain ⟨hwrmem, hwrpred⟩ := List.mem_filter.mp hwrf
      have hrid2 : wr.id = w.id := by
        rw [← hfr] at hrid
        exact hrid
      have hww : wr = w := eq_of_mem_of_id_eq huniq hwrmem hw hrid2
      rw [← hww]
      simp only [Bool.and_eq_true, beq_iff_eq, decide_eq_true_eq] at hwrpred
      exact ⟨hwrpred.1.1, hwrpred.1.2, hwrpred.2⟩
    · rintro ⟨hu, hge, hlt⟩
      unfold getWorkoutsByDate
      have hwf : w ∈ db.workouts.filter (fun w2 =>
          w2.userId == userId && decide (startOfDay date ≤ w2.date)
            && decide (w2.date < endOfDay date)) :=
        List.mem_filter.mpr ⟨hw, by simp [hu, hge, hlt]⟩
      have hws : w ∈ List.insertionSort dateDesc (db.workouts.filter (fun w2 =>
          w2.userId == userId && decide (startOfDay date ≤ w2.date)
            && decide (w2.date < endOfDay date))) :=
        (List.perm_insertionSort dateDesc _).mem_iff.mpr hwf
      exact ⟨detailsOfWorkout db w, List.mem_map_of_mem (detailsOfWorkout db) hws, rfl, rfl⟩
  · unfold endOfDay nextDayStart msPerDay
    omega

/-- Witness for getWorkoutsByDate_day_window: the in-window workout of exDb
is returned. -/
theorem getWorkoutsByDate_day_window_witness :
    ∃ r ∈ getWorkoutsByDate "u" 0 exDb, r.id = exWorkout.id ∧ r.date = exWorkout.date :=
  ((getWorkoutsByDate_day_window "u" 0 exDb (by decide)).1 exWorkout (by decide)).mpr
    (by decide)

/-- Deterministic ordering guarantees of getWorkoutsByDate: each workout's
exercises come back sorted ascending by orderIndex, each exercise's sets
sorted ascending by setNumber, and the workouts sorted by date descending.
The relative order of workouts sharing a date is a tie the program's SQL
ORDER BY leaves unspecified, so no theorem here asserts a tie-break. -/
theorem getWorkoutsByDate_result_ordering (userId : String) (date : Int) (db : Db) :
    (∀ w ∈ getWorkoutsByDate userId date db,
        w.exercises.Pairwise (fun a b => a.orderIndex ≤ b.orderIndex)
          ∧ ∀ e ∈ w.exercises, e.sets.Pairwise (fun a b => a.setNumber ≤ b.setNumber))
      ∧ (getWorkoutsByDate userId date db).Pairwise (fun a b => b.date ≤ a.date) := by
  constructor
  · intro w hw
    unfold getWorkoutsByDate at hw
    obtain ⟨wr, hwr, hfr⟩ := List.mem_map.mp hw
    constructor
    · rw [← hfr]
      exact List.pairwise_map.mpr (List.sorted_insertionSort orderIndexAsc _)
    · intro e he
      rw [← hfr] at he
      obtain ⟨we, hwe, hge⟩ := List.mem_map.mp he
      rw [← hge]
      exact List.pairwise_map.mpr (List.sorted_insertionSort setNumberAsc _)
  · unfold getWorkoutsByDate
    exact List.pairwise_map.mpr (List.sorted_insertionSort dateDesc _)

/-- Concrete instance of getWorkoutsByDate_result_ordering: exDb's workout,
stored with exercise order indices 0, 2, 1, comes back ordered 0, 1, 2 with
its sets ordered by setNumber. -/
theorem getWorkoutsByDate_result_ordering_witness :
    exDetails ∈ getWorkoutsByDate "u" 0 exDb
      ∧ exDetails.exercises.map (fun e => e.orderIndex) = [0, 1, 2]
      ∧ (exDetails.exercises.map (fun e => e.sets.map (fun s => s.setNumber))) = [[1, 2], [], []]
      ∧ exDetails.exercises.Pairwise (fun a b => a.orderIndex ≤ b.orderIndex) :=
  ⟨by decide, by decide, by decide,
    ((getWorkoutsByDate_result_ordering "u" 0 exDb).1 exDetails (by decide)).1⟩

end LiftingDiary
